import Mathlib

/-!
Verification of the GrlRPC serialization core (`src/include/serialization_framework.h`,
`src/include/type_registry.h`) in a shallow embedding.

C++ `std::unordered_map` state is modelled as an association list where assignment
(`m[k] = v`) removes any previous binding of `k` and prepends the new one; lookup
(`m.find(k)`) returns the first binding.  C++ runtime type identity (`typeid(T)`)
is modelled by the structure `CxxType`, carrying the mangled id (`typeid(T).name()`)
and its demangled display form (`abi::__cxa_demangle`), both opaque strings.
Byte strings (`std::string` payloads) are modelled as `List Nat`.
-/

set_option maxHeartbeats 1000000

namespace GrlRPC

/-- Lookup of the first binding of key `k` in an association list
(models `unordered_map::find`). -/
def alistFind {α : Type} (k : String) : List (String × α) → Option α
  | [] => none
  | (k₁, v) :: rest => if k₁ = k then some v else alistFind k rest

/-- Map assignment `m[k] = v`: drop any earlier binding of `k`, bind `k` to `v`. -/
def alistInsert {α : Type} (k : String) (v : α) (l : List (String × α)) :
    List (String × α) :=
  (k, v) :: l.filter (fun p => decide (p.1 ≠ k))

/-- A C++ runtime type: its mangled `typeid` name and its demangled display name. -/
structure CxxType where
  typeId : String
  demangled : String

-- ============================================================================
-- Field type enumeration (serialization_framework.h, `enum class FieldType`)
-- ============================================================================

inductive FieldType where
  | INT32
  | INT64
  | UINT32
  | UINT64
  | FLOAT
  | DOUBLE
  | STRING
  | BOOL
  | BYTES
  | MESSAGE
deriving DecidableEq, Repr

/-- A runtime field value, the model of the `std::any` produced by a field getter.
Numeric payloads are the machine values (floats by their bit pattern);
string-like payloads are byte lists. -/
inductive FieldValue where
  | int32 (v : Int)
  | int64 (v : Int)
  | uint32 (v : Nat)
  | uint64 (v : Nat)
  | float (bits : Nat)
  | double (bits : Nat)
  | string (bytesOf : List Nat)
  | bool (b : Bool)
  | bytes (bytesOf : List Nat)
  | message (payload : List Nat)
deriving DecidableEq, Repr

/-- The `FieldType` tag a `FieldValue` inhabits (models the dynamic type
held inside the `std::any`). -/
def fieldTag : FieldValue → FieldType
  | .int32 _ => .INT32
  | .int64 _ => .INT64
  | .uint32 _ => .UINT32
  | .uint64 _ => .UINT64
  | .float _ => .FLOAT
  | .double _ => .DOUBLE
  | .string _ => .STRING
  | .bool _ => .BOOL
  | .bytes _ => .BYTES
  | .message _ => .MESSAGE

/-- A serializable object viewed through its members: a finite map from member
identifier to the member's current value (the state a `const void*` object
pointer exposes through bound getters/setters). -/
abbrev Obj : Type := List (String × FieldValue)

/-- Byte-string payload type (`std::string` used as a data buffer). -/
abbrev ByteStr : Type := List Nat

-- ============================================================================
-- FieldDescriptor / MessageDescriptor (serialization_framework.h lines 40-77)
-- ============================================================================

/-- `struct FieldDescriptor`: name, wire type, field number and the two bound
accessors.  The getter models `std::function<std::any(const void*)>` (absence of
the member in the object model yields `none`); the setter models
`std::function<void(void*, const std::any&)>`. -/
structure FieldDescriptor where
  name : String
  type : FieldType
  field_number : Int
  getter : Obj → Option FieldValue
  setter : Obj → FieldValue → Obj

/-- `struct MessageDescriptor`. -/
structure MessageDescriptor where
  message_name : String
  fields : List FieldDescriptor

/-- `MessageDescriptor::AddField`: push_back onto `fields`. -/
def MessageDescriptor.AddField (d : MessageDescriptor) (f : FieldDescriptor) :
    MessageDescriptor :=
  { d with fields := d.fields ++ [f] }

/-- Linear scan of `fields` returning the first field with the given name
(the loop body of `MessageDescriptor::GetField`). -/
def findFieldByName (name : String) : List FieldDescriptor → Option FieldDescriptor
  | [] => none
  | f :: fs => if f.name = name then some f else findFieldByName name fs

/-- Linear scan of `fields` returning the first field with the given number
(the loop body of `MessageDescriptor::GetFieldByNumber`). -/
def findFieldByNumber (number : Int) : List FieldDescriptor → Option FieldDescriptor
  | [] => none
  | f :: fs => if f.field_number = number then some f else findFieldByNumber number fs

/-- `MessageDescriptor::GetField`: first field named `name`, else null. -/
def MessageDescriptor.GetField (d : MessageDescriptor) (name : String) :
    Option FieldDescriptor :=
  findFieldByName name d.fields

/-- `MessageDescriptor::GetFieldByNumber`: first field numbered `number`, else null. -/
def MessageDescriptor.GetFieldByNumber (d : MessageDescriptor) (number : Int) :
    Option FieldDescriptor :=
  findFieldByNumber number d.fields

-- ============================================================================
-- Serializer interfaces (serialization_framework.h lines 84-143)
-- ============================================================================

/-- `class ISerializer`: a generic reflection-driven format backend.  `Serialize`
receives the object, the descriptor and the current contents of the `output`
out-parameter and returns the success flag together with the (possibly updated)
out-parameter; `Deserialize` symmetrically returns the mutated object. -/
structure ISerializer where
  Serialize : Obj → MessageDescriptor → ByteStr → Bool × ByteStr
  Deserialize : ByteStr → Obj → MessageDescriptor → Bool × Obj
  GetName : String

/-- `template<typename T> class ITypeSerializer`: a specialized per-type codec.
The concrete value type `T` is represented through the universal object model. -/
structure ITypeSerializer where
  Serialize : Obj → ByteStr → Bool × ByteStr
  Deserialize : ByteStr → Obj → Bool × Obj
  GetName : String

/-- `template<typename T> class TypeSerializerWrapper : ITypeSerializerBase`:
the type-erased handle stored in the registry.  `concreteTypeId` records the
`T` the wrapper was instantiated at; a `dynamic_cast<TypeSerializerWrapper<U>*>`
succeeds exactly when `concreteTypeId` equals `U`'s type id. -/
structure TypeSerializerWrapper where
  concreteTypeId : String
  serializer : ITypeSerializer

/-- `TypeSerializerWrapper::GetName`, forwarding to the wrapped serializer. -/
def TypeSerializerWrapper.GetName (w : TypeSerializerWrapper) : String :=
  w.serializer.GetName

-- ============================================================================
-- ReflectionRegistry (serialization_framework.h lines 151-203)
-- ============================================================================

/-- State of the `ReflectionRegistry` singleton: `descriptors_`. -/
structure ReflectionRegistry where
  descriptors : List (String × MessageDescriptor)

/-- `ReflectionRegistry::RegisterType`: `descriptors_[type_name] = descriptor`. -/
def ReflectionRegistry.RegisterType (st : ReflectionRegistry) (type_name : String)
    (descriptor : MessageDescriptor) : ReflectionRegistry :=
  ⟨alistInsert type_name descriptor st.descriptors⟩

/-- `ReflectionRegistry::GetDescriptor`: find, else null. -/
def ReflectionRegistry.GetDescriptor (st : ReflectionRegistry) (type_name : String) :
    Option MessageDescriptor :=
  alistFind type_name st.descriptors

/-- `ReflectionRegistry::HasType`. -/
def ReflectionRegistry.HasType (st : ReflectionRegistry) (type_name : String) : Bool :=
  (alistFind type_name st.descriptors).isSome

/-- `ReflectionRegistry::GetRegisteredTypes`. -/
def ReflectionRegistry.GetRegisteredTypes (st : ReflectionRegistry) : List String :=
  st.descriptors.map (·.1)

/-- `ReflectionRegistry::Clear`: `descriptors_.clear()`. -/
def ReflectionRegistry.Clear (_ : ReflectionRegistry) : ReflectionRegistry :=
  ⟨[]⟩

-- ============================================================================
-- SerializerRegistry (serialization_framework.h lines 211-286)
-- ============================================================================

/-- State of the `SerializerRegistry` singleton: `serializers_` (generic, keyed
by format name) and `type_serializers_` (specialized, keyed by combined key). -/
structure SerializerRegistry where
  serializers : List (String × ISerializer)
  type_serializers : List (String × TypeSerializerWrapper)

/-- `SerializerRegistry::MakeTypeSerializerKey<T>`:
`typeid(T).name() + ":" + serializer_name`. -/
def MakeTypeSerializerKey (typeId serializer_name : String) : String :=
  typeId ++ ":" ++ serializer_name

/-- `SerializerRegistry::RegisterSerializer`: `serializers_[name] = serializer`. -/
def SerializerRegistry.RegisterSerializer (st : SerializerRegistry) (name : String)
    (serializer : ISerializer) : SerializerRegistry :=
  { st with serializers := alistInsert name serializer st.serializers }

/-- `SerializerRegistry::GetSerializer`: find, else null. -/
def SerializerRegistry.GetSerializer (st : SerializerRegistry) (name : String) :
    Option ISerializer :=
  alistFind name st.serializers

/-- `SerializerRegistry::RegisterTypeSerializer<T>`: stores the serializer behind
a `TypeSerializerWrapper<T>` under the combined key. -/
def SerializerRegistry.RegisterTypeSerializer (st : SerializerRegistry) (T : CxxType)
    (serializer_name : String) (serializer : ITypeSerializer) : SerializerRegistry :=
  { st with type_serializers :=
      (alistInsert (MakeTypeSerializerKey T.typeId serializer_name)
        ⟨T.typeId, serializer⟩ st.type_serializers) }

/-- `SerializerRegistry::GetTypeSerializer<T>`: find the wrapper under the
combined key, `dynamic_cast` it back to `TypeSerializerWrapper<T>` and return the
wrapped serializer; a missing entry or a failed downcast both yield null. -/
def SerializerRegistry.GetTypeSerializer (st : SerializerRegistry) (T : CxxType)
    (serializer_name : String) : Option ITypeSerializer :=
  match alistFind (MakeTypeSerializerKey T.typeId serializer_name) st.type_serializers with
  | some wrapper =>
      if wrapper.concreteTypeId = T.typeId then some wrapper.serializer else none
  | none => none

/-- `SerializerRegistry::HasTypeSerializer<T>`. -/
def SerializerRegistry.HasTypeSerializer (st : SerializerRegistry) (T : CxxType)
    (serializer_name : String) : Bool :=
  (alistFind (MakeTypeSerializerKey T.typeId serializer_name) st.type_serializers).isSome

/-- `SerializerRegistry::Clear`: both maps cleared. -/
def SerializerRegistry.Clear (_ : SerializerRegistry) : SerializerRegistry :=
  ⟨[], []⟩

-- ============================================================================
-- TypeRegistry (type_registry.h lines 58-183)
-- ============================================================================

/-- State of the `TypeRegistry` singleton: `type_names_` (mangled id → display
name) and `name_to_type_id_` (display name → mangled id). -/
structure TypeRegistry where
  type_names : List (String × String)
  name_to_type_id : List (String × String)

/-- `TypeRegistry::RegisterType<T>(custom_name)`: the display name is the custom
name when nonempty, else the demangled type name; both maps are assigned. -/
def TypeRegistry.RegisterType (st : TypeRegistry) (T : CxxType)
    (custom_name : String) : TypeRegistry :=
  let type_id := T.typeId
  let type_name := if custom_name = "" then T.demangled else custom_name
  { type_names := alistInsert type_id type_name st.type_names,
    name_to_type_id := alistInsert type_name type_id st.name_to_type_id }

/-- `TypeRegistry::GetTypeName<T>`: registered display name, else `""`. -/
def TypeRegistry.GetTypeName (st : TypeRegistry) (T : CxxType) : String :=
  match alistFind T.typeId st.type_names with
  | some n => n
  | none => ""

/-- `TypeRegistry::IsTypeRegistered<T>`. -/
def TypeRegistry.IsTypeRegistered (st : TypeRegistry) (T : CxxType) : Bool :=
  (alistFind T.typeId st.type_names).isSome

/-- `TypeRegistry::HasTypeName`. -/
def TypeRegistry.HasTypeName (st : TypeRegistry) (type_name : String) : Bool :=
  (alistFind type_name st.name_to_type_id).isSome

/-- `TypeRegistry::GetAllTypeNames`. -/
def TypeRegistry.GetAllTypeNames (st : TypeRegistry) : List String :=
  st.type_names.map (·.2)

/-- `TypeRegistry::GetRegisteredTypeCount`. -/
def TypeRegistry.GetRegisteredTypeCount (st : TypeRegistry) : Nat :=
  st.type_names.length

/-- `TypeRegistry::Clear`: both maps cleared. -/
def TypeRegistry.Clear (_ : TypeRegistry) : TypeRegistry :=
  ⟨[], []⟩

-- ============================================================================
-- SerializerFactory (serialization_framework.h lines 294-355)
-- ============================================================================

/-- `SerializerFactory::GetDemangled<T>`: the demangled display name of `T`. -/
def SerializerFactory.GetDemangled (T : CxxType) : String :=
  T.demangled

/-- `SerializerFactory::Serialize<T>(obj, serializer_name, output)` over explicit
registry states: probe the specialized serializer, else fall back to the generic
serializer with the descriptor looked up under the demangled name; any missing
link returns `false` with the out-parameter untouched. -/
def SerializerFactory.Serialize (T : CxxType) (obj : Obj) (serializer_name : String)
    (output : ByteStr) (sr : SerializerRegistry) (rr : ReflectionRegistry) :
    Bool × ByteStr :=
  match sr.GetTypeSerializer T serializer_name with
  | some type_serializer => type_serializer.Serialize obj output
  | none =>
    match sr.GetSerializer serializer_name with
    | some generic_serializer =>
      match rr.GetDescriptor (SerializerFactory.GetDemangled T) with
      | some descriptor => generic_serializer.Serialize obj descriptor output
      | none => (false, output)
    | none => (false, output)

/-- `SerializerFactory::Deserialize<T>(input, obj, serializer_name)`: mirrors the
same resolution, mutating the caller-supplied object. -/
def SerializerFactory.Deserialize (T : CxxType) (input : ByteStr) (obj : Obj)
    (serializer_name : String) (sr : SerializerRegistry) (rr : ReflectionRegistry) :
    Bool × Obj :=
  match sr.GetTypeSerializer T serializer_name with
  | some type_serializer => type_serializer.Deserialize input obj
  | none =>
    match sr.GetSerializer serializer_name with
    | some generic_serializer =>
      match rr.GetDescriptor (SerializerFactory.GetDemangled T) with
      | some descriptor => generic_serializer.Deserialize input obj descriptor
      | none => (false, obj)
    | none => (false, obj)

-- ============================================================================
-- Registration helpers (serialization_framework.h lines 363-417)
-- ============================================================================

/-- `AddFieldToDescriptor<ClassType, FieldType>`: appends a field whose getter
and setter are bound to the member identified by `member_ptr` (the model of the
member pointer `FieldType ClassType::*`). -/
def AddFieldToDescriptor (desc : MessageDescriptor) (name : String)
    (type : FieldType) (field_number : Int) (member_ptr : String) :
    MessageDescriptor :=
  desc.AddField
    { name := name, type := type, field_number := field_number,
      getter := fun obj => alistFind member_ptr obj,
      setter := fun obj value => alistInsert member_ptr value obj }

/-- The `FieldDescriptor` value constructed by `AddFieldToDescriptor` for one
field spec whose declared name and bound member coincide. -/
def mkFieldDescriptor (spec : String × FieldType × Int) : FieldDescriptor :=
  { name := spec.1, type := spec.2.1, field_number := spec.2.2,
    getter := fun obj => alistFind spec.1 obj,
    setter := fun obj value => alistInsert spec.1 value obj }

/-- One field registration line `GRLRPC_REGISTER_FIELD(desc, C, f, t, n)`:
the declared name and the bound member are the same identifier `f`. -/
def registerFieldSpec (d : MessageDescriptor) (spec : String × FieldType × Int) :
    MessageDescriptor :=
  AddFieldToDescriptor d spec.1 spec.2.1 spec.2.2 spec.1

/-- The descriptor built by the body of `GRLRPC_REGISTER_TYPE(class_type, ...)`:
a fresh descriptor named after the class, with one `GRLRPC_REGISTER_FIELD`
per field spec, in declaration order. -/
def mkDescriptor (class_name : String) (field_specs : List (String × FieldType × Int)) :
    MessageDescriptor :=
  field_specs.foldl registerFieldSpec ⟨class_name, []⟩

/-- `GRLRPC_REGISTER_TYPE(class_type, ...)`: the static registrar's constructor
effect on the `ReflectionRegistry`: build the descriptor and register it under
the class name. -/
def GRLRPC_REGISTER_TYPE (rr : ReflectionRegistry) (class_name : String)
    (field_specs : List (String × FieldType × Int)) : ReflectionRegistry :=
  rr.RegisterType class_name (mkDescriptor class_name field_specs)

-- ============================================================================
-- Reference generic serializer (spec-modelled)
-- ============================================================================

/-- Modelled from the spec: no concrete `ISerializer` implementation exists under
`src/` (only the abstract interface), so the format backend described in §4.3 of
the spec is modelled here.  Range of a `FieldValue` under its natural machine
representation: 32/64-bit signed and unsigned integral ranges, 32/64-bit float
bit patterns, byte-valued string/bytes/message payloads. -/
def FieldValue.inRange : FieldValue → Bool
  | .int32 v => decide (-(2 ^ 31 : Int) ≤ v) && decide (v < 2 ^ 31)
  | .int64 v => decide (-(2 ^ 63 : Int) ≤ v) && decide (v < 2 ^ 63)
  | .uint32 n => decide (n < 2 ^ 32)
  | .uint64 n => decide (n < 2 ^ 64)
  | .float bits => decide (bits < 2 ^ 32)
  | .double bits => decide (bits < 2 ^ 64)
  | .string s => s.all (fun b => decide (b < 256))
  | .bool _ => true
  | .bytes s => s.all (fun b => decide (b < 256))
  | .message s => s.all (fun b => decide (b < 256))

/-- Modelled from the spec: the reference backend's encoding of one field value —
a tag token, then the payload (biased integral value, or length-prefixed bytes). -/
def encodeFieldValue : FieldValue → ByteStr
  | .int32 v => [0, (v + 2 ^ 31).toNat]
  | .int64 v => [1, (v + 2 ^ 63).toNat]
  | .uint32 n => [2, n]
  | .uint64 n => [3, n]
  | .float bits => [4, bits]
  | .double bits => [5, bits]
  | .string s => 6 :: s.length :: s
  | .bool b => [7, if b then 1 else 0]
  | .bytes s => 8 :: s.length :: s
  | .message s => 9 :: s.length :: s

/-- Modelled from the spec: the reference backend's decoder for one field value;
returns the value and the remaining input, or `none` on malformed input. -/
def decodeFieldValue : ByteStr → Option (FieldValue × ByteStr)
  | 0 :: n :: rest =>
      if n < 2 ^ 32 then some (.int32 ((n : Int) - 2 ^ 31), rest) else none
  | 1 :: n :: rest =>
      if n < 2 ^ 64 then some (.int64 ((n : Int) - 2 ^ 63), rest) else none
  | 2 :: n :: rest => if n < 2 ^ 32 then some (.uint32 n, rest) else none
  | 3 :: n :: rest => if n < 2 ^ 64 then some (.uint64 n, rest) else none
  | 4 :: n :: rest => if n < 2 ^ 32 then some (.float n, rest) else none
  | 5 :: n :: rest => if n < 2 ^ 64 then some (.double n, rest) else none
  | 6 :: len :: rest =>
      if len ≤ rest.length then some (.string (rest.take len), rest.drop len) else none
  | 7 :: b :: rest => if b ≤ 1 then some (.bool (b == 1), rest) else none
  | 8 :: len :: rest =>
      if len ≤ rest.length then some (.bytes (rest.take len), rest.drop len) else none
  | 9 :: len :: rest =>
      if len ≤ rest.length then some (.message (rest.take len), rest.drop len) else none
  | _ => none

/-- Modelled from the spec: `ISerializer::Serialize` body of the reference
backend — iterate the descriptor's fields in declaration order, invoke each
getter, check the value inhabits the declared `FieldType`, and emit its
encoding; any failure aborts the whole attempt. -/
def serializeFields : List FieldDescriptor → Obj → Option ByteStr
  | [], _ => some []
  | f :: fs, obj =>
    match f.getter obj with
    | none => none
    | some v =>
      if fieldTag v = f.type then
        match serializeFields fs obj with
        | none => none
        | some rest => some (encodeFieldValue v ++ rest)
      else none

/-- Modelled from the spec: `ISerializer::Deserialize` body of the reference
backend — decode one value per declared field in order, check its tag against
the declared `FieldType`, and store it through the field's setter. -/
def deserializeFields : List FieldDescriptor → ByteStr → Obj → Option Obj
  | [], input, obj => if input.isEmpty then some obj else none
  | f :: fs, input, obj =>
    match decodeFieldValue input with
    | none => none
    | some (v, rest) =>
      if fieldTag v = f.type then deserializeFields fs rest (f.setter obj v)
      else none

/-- Modelled from the spec: the reference generic format backend packaged as an
`ISerializer` (success flag plus out-parameter semantics of the interface). -/
def refSerializer : ISerializer :=
  { Serialize := fun obj desc output =>
      match serializeFields desc.fields obj with
      | some s => (true, s)
      | none => (false, output),
    Deserialize := fun input obj desc =>
      match deserializeFields desc.fields input obj with
      | some o => (true, o)
      | none => (false, obj),
    GetName := "ref" }

-- ============================================================================
-- Concrete fixtures used by the witness theorems
-- ============================================================================

/-- A concrete C++ type `Point` (mangled id as produced by the Itanium ABI). -/
def pointT : CxxType :=
  ⟨"5Point", "Point"⟩

/-- A second concrete C++ type `Line`. -/
def lineT : CxxType :=
  ⟨"4Line", "Line"⟩

/-- Field specs of `Point`: `x`(INT32, 1), `y`(INT32, 2). -/
def pointSpecs : List (String × FieldType × Int) :=
  [("x", FieldType.INT32, 1), ("y", FieldType.INT32, 2)]

/-- A concrete `Point` value `{x = 3, y = 4}` in the object model. -/
def pointObj : Obj :=
  [("x", FieldValue.int32 3), ("y", FieldValue.int32 4)]

/-- A zero-initialized `Point` value. -/
def pointZero : Obj :=
  [("x", FieldValue.int32 0), ("y", FieldValue.int32 0)]

/-- A concrete specialized serializer used by witnesses: constant encoder. -/
def constTypeSerializer : ITypeSerializer :=
  { Serialize := fun _ _ => (true, [42]),
    Deserialize := fun _ obj => (true, obj),
    GetName := "bin" }

/-- A registry holding only the specialized serializer for `(Point, "bin")`. -/
def srSpecialized : SerializerRegistry :=
  SerializerRegistry.RegisterTypeSerializer ⟨[], []⟩ pointT "bin" constTypeSerializer

/-- A registry holding only the reference generic serializer under `"json"`. -/
def srGeneric : SerializerRegistry :=
  SerializerRegistry.RegisterSerializer ⟨[], []⟩ "json" refSerializer

/-- A reflection registry where `Point` was registered via `GRLRPC_REGISTER_TYPE`. -/
def rrPoint : ReflectionRegistry :=
  GRLRPC_REGISTER_TYPE ⟨[]⟩ "Point" pointSpecs

/-- A serializer registry whose specialized entry for `(Point, "bin")` holds a
wrapper instantiated at a different concrete type (`Line`): the state probed by
the failed-downcast claim. -/
def srMismatched : SerializerRegistry :=
  ⟨[], [(MakeTypeSerializerKey pointT.typeId "bin",
         ⟨lineT.typeId, constTypeSerializer⟩)]⟩

-- ============================================================================
-- Helper lemmas
-- ============================================================================

/-- Lookup after assignment of the same key yields the assigned value. -/
theorem alistFind_insert_self {α : Type} (k : String) (v : α) (l : List (String × α)) :
    alistFind k (alistInsert k v l) = some v := by
  simp [alistInsert, alistFind]

/-- Filtering out the bindings of one key does not change lookup at another key. -/
theorem alistFind_filter_of_ne {α : Type} {k k' : String} (h : k' ≠ k)
    (l : List (String × α)) :
    alistFind k' (l.filter (fun p => decide (p.1 ≠ k))) = alistFind k' l := by
  induction l with
  | nil => rfl
  | cons a l ih =>
    obtain ⟨k₁, v₁⟩ := a
    simp only [ne_eq, decide_not] at ih
    by_cases hk : k₁ = k
    · subst hk
      have hne : ¬ k₁ = k' := fun hc => h hc.symm
      simp [List.filter_cons, alistFind, hne, ih]
    · by_cases hk' : k₁ = k'
      · subst hk'
        simp [List.filter_cons, alistFind, hk]
      · simp [List.filter_cons, alistFind, hk, hk', ih]

/-- Lookup after assignment of a different key is unchanged. -/
theorem alistFind_insert_of_ne {α : Type} {k k' : String} (h : k' ≠ k) (v : α)
    (l : List (String × α)) :
    alistFind k' (alistInsert k v l) = alistFind k' l := by
  have hne : ¬ k = k' := fun hc => h hc.symm
  simp only [alistInsert, alistFind, hne, if_false]
  exact alistFind_filter_of_ne h l

/-- Folding `AddField` appends the fields in order. -/
theorem foldl_AddField_fields (fs : List FieldDescriptor) (d : MessageDescriptor) :
    (fs.foldl MessageDescriptor.AddField d).fields = d.fields ++ fs := by
  induction fs generalizing d with
  | nil => simp
  | cons f fs ih => simp [MessageDescriptor.AddField, ih]

/-- The fields of a descriptor built by `mkDescriptor` are exactly the field
descriptors of the specs, in declaration order. -/
theorem mkDescriptor_fields (class_name : String)
    (specs : List (String × FieldType × Int)) :
    (mkDescriptor class_name specs).fields = specs.map mkFieldDescriptor := by
  suffices h : ∀ d : MessageDescriptor,
      (specs.foldl registerFieldSpec d).fields = d.fields ++ specs.map mkFieldDescriptor by
    simpa [mkDescriptor] using h ⟨class_name, []⟩
  induction specs with
  | nil => intro d; simp
  | cons s specs ih =>
    intro d
    simp [registerFieldSpec, AddFieldToDescriptor, MessageDescriptor.AddField, ih,
      mkFieldDescriptor]

/-- The name-scan loop agrees with `List.find?` on the name predicate. -/
theorem findFieldByName_eq_find (name : String) (fs : List FieldDescriptor) :
    findFieldByName name fs = fs.find? (fun f => f.name == name) := by
  induction fs with
  | nil => rfl
  | cons f fs ih =>
    by_cases h : f.name = name
    · rw [List.find?_cons_of_pos _ (by simp [h])]
      simp [findFieldByName, h]
    · rw [List.find?_cons_of_neg _ (by simp [h])]
      simp [findFieldByName, h, ih]

/-- The number-scan loop agrees with `List.find?` on the number predicate. -/
theorem findFieldByNumber_eq_find (number : Int) (fs : List FieldDescriptor) :
    findFieldByNumber number fs = fs.find? (fun f => f.field_number == number) := by
  induction fs with
  | nil => rfl
  | cons f fs ih =>
    by_cases h : f.field_number = number
    · rw [List.find?_cons_of_pos _ (by simp [h])]
      simp [findFieldByNumber, h]
    · rw [List.find?_cons_of_neg _ (by simp [h])]
      simp [findFieldByNumber, h, ih]

/-- Decoding an encoded in-range field value recovers the value and the rest of
the input. -/
theorem decodeFieldValue_encodeFieldValue (val : FieldValue)
    (h : val.inRange = true) (rest : ByteStr) :
    decodeFieldValue (encodeFieldValue val ++ rest) = some (val, rest) := by
  cases val with
  | int32 v =>
    simp only [FieldValue.inRange, Bool.and_eq_true, decide_eq_true_eq] at h
    simp only [encodeFieldValue, List.cons_append, List.nil_append, decodeFieldValue]
    rw [if_pos (by omega)]
    exact congrArg some (congrArg (·, rest) (congrArg FieldValue.int32 (by omega)))
  | int64 v =>
    simp only [FieldValue.inRange, Bool.and_eq_true, decide_eq_true_eq] at h
    simp only [encodeFieldValue, List.cons_append, List.nil_append, decodeFieldValue]
    rw [if_pos (by omega)]
    exact congrArg some (congrArg (·, rest) (congrArg FieldValue.int64 (by omega)))
  | uint32 n =>
    simp only [FieldValue.inRange, decide_eq_true_eq] at h
    simp only [encodeFieldValue, List.cons_append, List.nil_append, decodeFieldValue]
    rw [if_pos (by omega)]
  | uint64 n =>
    simp only [FieldValue.inRange, decide_eq_true_eq] at h
    simp only [encodeFieldValue, List.cons_append, List.nil_append, decodeFieldValue]
    rw [if_pos (by omega)]
  | float bits =>
    simp only [FieldValue.inRange, decide_eq_true_eq] at h
    simp only [encodeFieldValue, List.cons_append, List.nil_append, decodeFieldValue]
    rw [if_pos (by omega)]
  | double bits =>
    simp only [FieldValue.inRange, decide_eq_true_eq] at h
    simp only [encodeFieldValue, List.cons_append, List.nil_append, decodeFieldValue]
    rw [if_pos (by omega)]
  | string s =>
    simp only [encodeFieldValue, List.cons_append, decodeFieldValue]
    rw [if_pos (by simp), List.take_left, List.drop_left]
  | bool b =>
    cases b <;> simp [encodeFieldValue, decodeFieldValue]
  | bytes s =>
    simp only [encodeFieldValue, List.cons_append, decodeFieldValue]
    rw [if_pos (by simp), List.take_left, List.drop_left]
  | message s =>
    simp only [encodeFieldValue, List.cons_append, decodeFieldValue]
    rw [if_pos (by simp), List.take_left, List.drop_left]

/-- Core round-trip of the reference backend: given field specs with distinct
names and an object holding a well-typed, in-range value for each declared
field, serialization succeeds, deserialization of its output into any start
object succeeds, the result agrees with the original object on every declared
field, and leaves every other member of the start object unchanged. -/
theorem serializeFields_roundtrip (specs : List (String × FieldType × Int))
    (v : Obj) (hnodup : (specs.map Prod.fst).Nodup)
    (hv : ∀ s ∈ specs, ∃ val, alistFind s.1 v = some val ∧
      fieldTag val = s.2.1 ∧ val.inRange = true) :
    ∃ out, serializeFields (specs.map mkFieldDescriptor) v = some out ∧
      ∀ o₀ : Obj, ∃ o₁,
        deserializeFields (specs.map mkFieldDescriptor) out o₀ = some o₁ ∧
        (∀ s ∈ specs, alistFind s.1 o₁ = alistFind s.1 v) ∧
        (∀ n, n ∉ specs.map Prod.fst → alistFind n o₁ = alistFind n o₀) := by
  induction specs with
  | nil =>
    refine ⟨[], rfl, fun o₀ => ⟨o₀, ?_, ?_, ?_⟩⟩
    · simp [deserializeFields]
    · intro s hs; cases hs
    · intro n _; rfl
  | cons s specs ih =>
    obtain ⟨val, hfind, htag, hrange⟩ := hv s (List.mem_cons_self s specs)
    have hnodup' := hnodup
    simp only [List.map_cons, List.nodup_cons] at hnodup'
    obtain ⟨hhead, htail⟩ := hnodup'
    obtain ⟨out', hser', hdes'⟩ :=
      ih htail (fun t ht => hv t (List.mem_cons_of_mem s ht))
    refine ⟨encodeFieldValue val ++ out', ?_, ?_⟩
    · simp only [List.map_cons, serializeFields, mkFieldDescriptor, hfind, htag,
        if_pos rfl, hser']
      rw [if_pos trivial]
    · intro o₀
      obtain ⟨o₁, hdeso, hagree, hrest⟩ := hdes' (alistInsert s.1 val o₀)
      refine ⟨o₁, ?_, ?_, ?_⟩
      · simp only [List.map_cons, deserializeFields,
          decodeFieldValue_encodeFieldValue val hrange, htag, if_pos rfl,
          mkFieldDescriptor]
        exact hdeso
      · intro t ht
        rcases List.mem_cons.mp ht with heq | hmem
        · subst heq
          have : alistFind t.1 o₁ = alistFind t.1 (alistInsert t.1 val o₀) :=
            hrest t.1 hhead
          rw [this, alistFind_insert_self, hfind]
        · exact hagree t hmem
      · intro n hn
        simp only [List.map_cons, List.mem_cons, not_or] at hn
        obtain ⟨hn₁, hn₂⟩ := hn
        rw [hrest n hn₂, alistFind_insert_of_ne hn₁]

/-- When no specialized serializer resolves, a registered generic serializer and
a registered descriptor make `SerializerFactory::Serialize` delegate to the
generic serializer with the descriptor. -/
theorem serialize_generic_path (T : CxxType) (obj : Obj) (serializer_name : String)
    (output : ByteStr) (sr : SerializerRegistry) (rr : ReflectionRegistry)
    (g : ISerializer) (d : MessageDescriptor)
    (hts : sr.GetTypeSerializer T serializer_name = none)
    (hg : sr.GetSerializer serializer_name = some g)
    (hd : rr.GetDescriptor T.demangled = some d) :
    SerializerFactory.Serialize T obj serializer_name output sr rr
      = g.Serialize obj d output := by
  simp only [SerializerFactory.Serialize, SerializerFactory.GetDemangled, hts, hg, hd]

/-- The mirrored delegation for `SerializerFactory::Deserialize`. -/
theorem deserialize_generic_path (T : CxxType) (input : ByteStr) (obj : Obj)
    (serializer_name : String) (sr : SerializerRegistry) (rr : ReflectionRegistry)
    (g : ISerializer) (d : MessageDescriptor)
    (hts : sr.GetTypeSerializer T serializer_name = none)
    (hg : sr.GetSerializer serializer_name = some g)
    (hd : rr.GetDescriptor T.demangled = some d) :
    SerializerFactory.Deserialize T input obj serializer_name sr rr
      = g.Deserialize input obj d := by
  simp only [SerializerFactory.Deserialize, SerializerFactory.GetDemangled, hts, hg, hd]

-- ============================================================================
-- Claim theorems
-- ============================================================================

/-- Claim C1: when a specialized serializer is registered for `(T, f)`,
`SerializerFactory::Serialize` delegates to it and returns its result verbatim
(success or failure), for every contents of the generic-serializer table and of
the Reflection Registry — the generic serializer, the descriptor lookup and the
Reflection Registry are never consulted. -/
theorem specialized_serializer_precedence (T : CxxType) (obj : Obj) (f : String)
    (output : ByteStr) (sr : SerializerRegistry) (ts : ITypeSerializer)
    (hts : sr.GetTypeSerializer T f = some ts) :
    ∀ (gens : List (String × ISerializer)) (rr : ReflectionRegistry),
      SerializerFactory.Serialize T obj f output { sr with serializers := gens } rr
        = ts.Serialize obj output := by
  intro gens rr
  have hts' : SerializerRegistry.GetTypeSerializer
      { sr with serializers := gens } T f = some ts := hts
  simp only [SerializerFactory.Serialize, hts']

/-- Witness for C1 at `(Point, "bin")` with only a specialized serializer. -/
theorem specialized_serializer_precedence_witness :
    srSpecialized.GetTypeSerializer pointT "bin" = some constTypeSerializer ∧
    SerializerFactory.Serialize pointT pointObj "bin" [] srSpecialized rrPoint
      = constTypeSerializer.Serialize pointObj [] := by
  refine ⟨rfl, ?_⟩
  exact specialized_serializer_precedence pointT pointObj "bin" [] srSpecialized
    constTypeSerializer rfl srSpecialized.serializers rrPoint

/-- Claim C2: with no specialized serializer for `(T, f)`, a generic serializer
registered under `f`, and `T` registered through `GRLRPC_REGISTER_TYPE`,
`SerializerFactory::Serialize` resolves via the generic path and produces
exactly the result of invoking the generic serializer directly with the value
and `T`'s descriptor. -/
theorem generic_fallback_delegation (T : CxxType) (obj : Obj) (f : String)
    (output : ByteStr) (sr : SerializerRegistry) (rr₀ : ReflectionRegistry)
    (g : ISerializer) (specs : List (String × FieldType × Int))
    (hts : sr.GetTypeSerializer T f = none)
    (hg : sr.GetSerializer f = some g) :
    SerializerFactory.Serialize T obj f output sr
        (GRLRPC_REGISTER_TYPE rr₀ T.demangled specs)
      = g.Serialize obj (mkDescriptor T.demangled specs) output := by
  refine serialize_generic_path T obj f output sr _ g _ hts hg ?_
  simp only [GRLRPC_REGISTER_TYPE, ReflectionRegistry.RegisterType,
    ReflectionRegistry.GetDescriptor]
  exact alistFind_insert_self _ _ _

/-- Witness for C2 at `(Point, "json")` with the reference generic serializer. -/
theorem generic_fallback_delegation_witness :
    srGeneric.GetTypeSerializer pointT "json" = none ∧
    srGeneric.GetSerializer "json" = some refSerializer ∧
    SerializerFactory.Serialize pointT pointObj "json" []
        srGeneric (GRLRPC_REGISTER_TYPE ⟨[]⟩ pointT.demangled pointSpecs)
      = refSerializer.Serialize pointObj (mkDescriptor pointT.demangled pointSpecs) [] :=
  ⟨rfl, rfl, generic_fallback_delegation pointT pointObj "json" [] srGeneric ⟨[]⟩
    refSerializer pointSpecs rfl rfl⟩

/-- Claim C3: with no specialized serializer for `(T, f)` and either no generic
serializer under `f` or no descriptor under `T`'s display name, both
`SerializerFactory::Serialize` and `SerializerFactory::Deserialize` return the
uniform failure result `false` and leave their out-parameters untouched. -/
theorem factory_fails_closed (T : CxxType) (obj : Obj) (input : ByteStr)
    (f : String) (output : ByteStr) (sr : SerializerRegistry)
    (rr : ReflectionRegistry)
    (hts : sr.GetTypeSerializer T f = none)
    (hmiss : sr.GetSerializer f = none ∨ rr.GetDescriptor T.demangled = none) :
    SerializerFactory.Serialize T obj f output sr rr = (false, output) ∧
    SerializerFactory.Deserialize T input obj f sr rr = (false, obj) := by
  rcases hmiss with hg | hd
  · constructor
    · simp only [SerializerFactory.Serialize, hts, hg]
    · simp only [SerializerFactory.Deserialize, hts, hg]
  · constructor
    · cases hg : sr.GetSerializer f with
      | none => simp only [SerializerFactory.Serialize, hts, hg]
      | some g =>
        simp only [SerializerFactory.Serialize, SerializerFactory.GetDemangled,
          hts, hg, hd]
    · cases hg : sr.GetSerializer f with
      | none => simp only [SerializerFactory.Deserialize, hts, hg]
      | some g =>
        simp only [SerializerFactory.Deserialize, SerializerFactory.GetDemangled,
          hts, hg, hd]

/-- Witness for C3 on fully empty registries. -/
theorem factory_fails_closed_witness :
    SerializerFactory.Serialize pointT pointObj "json" [] ⟨[], []⟩ ⟨[]⟩
      = (false, []) ∧
    SerializerFactory.Deserialize pointT [] pointObj "json" ⟨[], []⟩ ⟨[]⟩
      = (false, pointObj) :=
  factory_fails_closed pointT pointObj [] "json" [] ⟨[], []⟩ ⟨[]⟩ rfl (Or.inl rfl)

/-- Claim C4: for a registered type (descriptor present under its display name)
and a registered format (the reference generic backend, modelled from the spec
since `src/` holds no concrete serializer), with each declared field holding a
well-typed value within its `FieldType`'s representable range, the factory
round-trips: `Deserialize(Serialize(v, f), f)` succeeds and reproduces a value
equal to `v` field-by-field. -/
theorem serializer_roundtrip (T : CxxType) (f class_name : String)
    (specs : List (String × FieldType × Int)) (v o₀ : Obj)
    (sr : SerializerRegistry) (rr : ReflectionRegistry)
    (hts : sr.GetTypeSerializer T f = none)
    (hg : sr.GetSerializer f = some refSerializer)
    (hd : rr.GetDescriptor T.demangled = some (mkDescriptor class_name specs))
    (hnodup : (specs.map Prod.fst).Nodup)
    (hv : ∀ s ∈ specs, ∃ val, alistFind s.1 v = some val ∧
      fieldTag val = s.2.1 ∧ val.inRange = true) :
    ∃ out o₁,
      SerializerFactory.Serialize T v f [] sr rr = (true, out) ∧
      SerializerFactory.Deserialize T out o₀ f sr rr = (true, o₁) ∧
      ∀ s ∈ specs, alistFind s.1 o₁ = alistFind s.1 v := by
  obtain ⟨out, hser, hdes⟩ := serializeFields_roundtrip specs v hnodup hv
  obtain ⟨o₁, hdeso, hagree, _⟩ := hdes o₀
  refine ⟨out, o₁, ?_, ?_, hagree⟩
  · rw [serialize_generic_path T v f [] sr rr refSerializer _ hts hg hd]
    simp only [refSerializer, mkDescriptor_fields, hser]
  · rw [deserialize_generic_path T out o₀ f sr rr refSerializer _ hts hg hd]
    simp only [refSerializer, mkDescriptor_fields, hdeso]

/-- Witness for C4: `Point{3,4}` round-trips through the `"json"` format. -/
theorem serializer_roundtrip_witness :
    ∃ out o₁,
      SerializerFactory.Serialize pointT pointObj "json" [] srGeneric rrPoint
        = (true, out) ∧
      SerializerFactory.Deserialize pointT out pointZero "json" srGeneric rrPoint
        = (true, o₁) ∧
      ∀ s ∈ pointSpecs, alistFind s.1 o₁ = alistFind s.1 pointObj := by
  refine serializer_roundtrip pointT "json" "Point" pointSpecs pointObj pointZero
    srGeneric rrPoint rfl rfl rfl (by decide) ?_
  intro s hs
  simp only [pointSpecs, List.mem_cons, List.not_mem_nil, or_false] at hs
  rcases hs with rfl | rfl
  · exact ⟨FieldValue.int32 3, rfl, rfl, by decide⟩
  · exact ⟨FieldValue.int32 4, rfl, rfl, by decide⟩

/-- Claim C5: a type with no binding in the `TypeRegistry` state yields `""`
from `GetTypeName` and `false` from `IsTypeRegistered`; both are total lookups,
absence is not an error. -/
theorem unregistered_type_lookup (st : TypeRegistry) (T : CxxType)
    (h : alistFind T.typeId st.type_names = none) :
    st.GetTypeName T = "" ∧ st.IsTypeRegistered T = false := by
  constructor
  · simp only [TypeRegistry.GetTypeName, h]
  · simp only [TypeRegistry.IsTypeRegistered, h, Option.isSome_none]

/-- Witness for C5 on the empty registry. -/
theorem unregistered_type_lookup_witness :
    TypeRegistry.GetTypeName ⟨[], []⟩ pointT = "" ∧
    TypeRegistry.IsTypeRegistered ⟨[], []⟩ pointT = false :=
  unregistered_type_lookup ⟨[], []⟩ pointT rfl

/-- Claim C6: registration is last-write-wins without error: after registering
`T` under `n₁` then under `n₂`, `GetTypeName` returns `n₂`; and after
registering `T₁` then `T₂` under one shared name `n`, the reverse mapping for
`n` refers to `T₂`. -/
theorem registration_last_write_wins (st st' : TypeRegistry) (T T₁ T₂ : CxxType)
    (n₁ n₂ n : String) (h₁ : n₁ ≠ "") (h₂ : n₂ ≠ "") (hn : n ≠ "") :
    ((st.RegisterType T n₁).RegisterType T n₂).GetTypeName T = n₂ ∧
    alistFind n ((st'.RegisterType T₁ n).RegisterType T₂ n).name_to_type_id
      = some T₂.typeId := by
  constructor
  · have key : alistFind T.typeId
        ((st.RegisterType T n₁).RegisterType T n₂).type_names = some n₂ := by
      simp only [TypeRegistry.RegisterType, if_neg h₂]
      exact alistFind_insert_self _ _ _
    simp only [TypeRegistry.GetTypeName, key]
  · simp only [TypeRegistry.RegisterType, if_neg hn]
    exact alistFind_insert_self _ _ _

/-- Witness for C6 with custom names `"A"`, `"B"` and shared name `"N"`. -/
theorem registration_last_write_wins_witness :
    ((TypeRegistry.RegisterType
        (TypeRegistry.RegisterType ⟨[], []⟩ pointT "A") pointT "B").GetTypeName
      pointT = "B") ∧
    alistFind "N" ((TypeRegistry.RegisterType
        (TypeRegistry.RegisterType ⟨[], []⟩ pointT "N") lineT "N").name_to_type_id)
      = some lineT.typeId :=
  registration_last_write_wins ⟨[], []⟩ ⟨[], []⟩ pointT pointT lineT "A" "B" "N"
    (by decide) (by decide) (by decide)

/-- Claim C7: `AddField` appends, preserving insertion order, and `GetField` /
`GetFieldByNumber` return the first matching field, or null (not an error) when
no field with that name or number exists. -/
theorem message_descriptor_field_lookup (d : MessageDescriptor)
    (fs : List FieldDescriptor) (name : String) (number : Int) :
    (fs.foldl MessageDescriptor.AddField d).fields = d.fields ++ fs ∧
    d.GetField name = d.fields.find? (fun f => f.name == name) ∧
    d.GetFieldByNumber number = d.fields.find? (fun f => f.field_number == number) ∧
    (d.GetField name = none ↔ ∀ f ∈ d.fields, f.name ≠ name) ∧
    (d.GetFieldByNumber number = none ↔ ∀ f ∈ d.fields, f.field_number ≠ number) := by
  refine ⟨foldl_AddField_fields fs d, findFieldByName_eq_find name d.fields,
    findFieldByNumber_eq_find number d.fields, ?_, ?_⟩
  · simp only [MessageDescriptor.GetField, findFieldByName_eq_find,
      List.find?_eq_none]
    simp
  · simp only [MessageDescriptor.GetFieldByNumber, findFieldByNumber_eq_find,
      List.find?_eq_none]
    simp

/-- Claim C8: when the entry stored under the key for `(T, f)` is a wrapper
whose concrete type differs from `T`, `GetTypeSerializer<T>` returns null —
the same as when no entry exists; the failed downcast is not a distinct error. -/
theorem failed_downcast_is_not_found (st : SerializerRegistry) (T : CxxType)
    (f : String) (w : TypeSerializerWrapper)
    (hfind : alistFind (MakeTypeSerializerKey T.typeId f) st.type_serializers
      = some w)
    (hmismatch : w.concreteTypeId ≠ T.typeId) :
    st.GetTypeSerializer T f = none := by
  simp only [SerializerRegistry.GetTypeSerializer, hfind, if_neg hmismatch]

/-- Witness for C8 on a registry whose `(Point, "bin")` entry wraps a `Line`
serializer. -/
theorem failed_downcast_is_not_found_witness :
    srMismatched.GetTypeSerializer pointT "bin" = none :=
  failed_downcast_is_not_found srMismatched pointT "bin"
    ⟨lineT.typeId, constTypeSerializer⟩ rfl (by decide)

/-- Claim C9: after `Clear()` on any of the three registries, every presence
check against previously registered entries reports false / not-found / zero. -/
theorem clear_isolation (tr : TypeRegistry) (rr : ReflectionRegistry)
    (sr : SerializerRegistry) (T : CxxType) (name f : String) :
    (tr.Clear).IsTypeRegistered T = false ∧
    (tr.Clear).HasTypeName name = false ∧
    (tr.Clear).GetRegisteredTypeCount = 0 ∧
    (rr.Clear).HasType name = false ∧
    (rr.Clear).GetDescriptor name = none ∧
    (sr.Clear).GetSerializer f = none ∧
    (sr.Clear).HasTypeSerializer T f = false ∧
    (sr.Clear).GetTypeSerializer T f = none :=
  ⟨rfl, rfl, rfl, rfl, rfl, rfl, rfl, rfl⟩

/-- Claim C10 (implicit): re-registering a type under a new name leaves the old
name's reverse-map entry in place — after `RegisterType T n₁` then
`RegisterType T n₂`, `HasTypeName n₁` is still true and `n₁` still maps to `T`;
only `Clear()` removes it. -/
theorem stale_reverse_mapping_persists (st : TypeRegistry) (T : CxxType)
    (n₁ n₂ : String) (h₁ : n₁ ≠ "") (h₂ : n₂ ≠ "") (hne : n₁ ≠ n₂) :
    ((st.RegisterType T n₁).RegisterType T n₂).HasTypeName n₁ = true ∧
    alistFind n₁ ((st.RegisterType T n₁).RegisterType T n₂).name_to_type_id
      = some T.typeId ∧
    (((st.RegisterType T n₁).RegisterType T n₂).Clear).HasTypeName n₁ = false := by
  have key : alistFind n₁
      ((st.RegisterType T n₁).RegisterType T n₂).name_to_type_id
        = some T.typeId := by
    simp only [TypeRegistry.RegisterType, if_neg h₁, if_neg h₂]
    rw [alistFind_insert_of_ne hne, alistFind_insert_self]
  refine ⟨?_, key, rfl⟩
  simp only [TypeRegistry.HasTypeName, key, Option.isSome_some]

/-- Witness for C10 with names `"A"` then `"B"`. -/
theorem stale_reverse_mapping_persists_witness :
    ((TypeRegistry.RegisterType
        (TypeRegistry.RegisterType ⟨[], []⟩ pointT "A") pointT "B").HasTypeName
      "A" = true) ∧
    alistFind "A" ((TypeRegistry.RegisterType
        (TypeRegistry.RegisterType ⟨[], []⟩ pointT "A") pointT "B").name_to_type_id)
      = some pointT.typeId ∧
    (((TypeRegistry.RegisterType
        (TypeRegistry.RegisterType ⟨[], []⟩ pointT "A") pointT "B").Clear).HasTypeName
      "A" = false) :=
  stale_reverse_mapping_persists ⟨[], []⟩ pointT "A" "B"
    (by decide) (by decide) (by decide)

end GrlRPC
